import Mathlib

/-!
Verification of the botStonkWar trade allocation and settlement ledger.

The development embeds, in order:
* `Schema` — the MySQL schema (`users`, `trades`, `trade_votes`,
  `trade_acceptances`) from the repository's SQL definition file, as
  executable insert/update admissibility checks.
* `NotificationModal` — the commitment-submission UI logic from
  `feature-WebApp/frontend/src/components/dashboard/NotificationModal.tsx`
  (input validation, SELL visibility guard, request-body construction).
* `NM16` — the variant of the same component whose submit handler carries
  the allocation-type toggle and performs validation inside
  `submitResponse` itself.
* `Ledger` — the trade allocation core (AccountStore / TradeRegistry /
  AllocationLedger / SettlementProcessor / ExpiryReaper / EquityCalculator),
  which is absent from the repository sources (only its SQL schema and its
  frontend callers exist); it is modelled from the specification, with each
  definition's doc comment naming the modelled component.  Per the
  specification's concurrency model, submissions for one account are
  serialized and sweeps are atomic per commitment, so a concurrent
  execution is a sequence of atomic operations.
-/

namespace Schema

/-- A row of the `users` table: id (PK), username (UNIQUE), email (UNIQUE),
password_hash, balance DECIMAL(15,2). -/
structure UserRow where
  id : Nat
  username : String
  email : String
  password_hash : String
  balance : ℚ
deriving DecidableEq

/-- The `users` table declares `balance DECIMAL(15, 2) DEFAULT 10000.00`. -/
def usersBalanceDefault : ℚ := 10000

/-- Storage-layer admissibility of inserting a row into `users`:
the primary key and the UNIQUE constraints on username and email. -/
def usersInsertOk (tbl : List UserRow) (r : UserRow) : Bool :=
  !(tbl.any fun q => q.id == r.id) &&
  !(tbl.any fun q => q.username == r.username) &&
  !(tbl.any fun q => q.email == r.email)

/-- `createUser` from `lib/db.ts` (signup path): a transaction inserting
`(username, email, password_hash, balance)` with the explicit value
`10000.00` for balance; on error the transaction rolls back and the
table is unchanged. -/
def createUser (tbl : List UserRow) (nextId : Nat)
    (username email passwordHash : String) : Except String (List UserRow) :=
  let row : UserRow :=
    { id := nextId, username := username, email := email
      password_hash := passwordHash, balance := 10000 }
  if usersInsertOk tbl row then Except.ok (tbl ++ [row])
  else Except.error "Error creating user"

/-- The earlier `createUser` variant in `lib/db.ts` inserts only
`(username, email, password_hash)`, so the balance column takes the
schema default. -/
def createUserLegacy (tbl : List UserRow) (nextId : Nat)
    (username email passwordHash : String) : Except String (List UserRow) :=
  let row : UserRow :=
    { id := nextId, username := username, email := email
      password_hash := passwordHash, balance := usersBalanceDefault }
  if usersInsertOk tbl row then Except.ok (tbl ++ [row])
  else Except.error "Error creating user"

/-- The `trades` table's status column:
`ENUM('PROPOSED', 'APPROVED', 'REJECTED', 'EXECUTED', 'CLOSED')`. -/
def tradeStatusEnum : List String :=
  ["PROPOSED", "APPROVED", "REJECTED", "EXECUTED", "CLOSED"]

/-- A stored trade status is admissible iff it is one of the ENUM values. -/
def tradeStatusOk (status : String) : Bool :=
  tradeStatusEnum.contains status

/-- Storage-layer admissibility of updating a trade's status: the ENUM
constrains only the new value; no transition guard exists in the schema,
so admissibility does not depend on the previous status. -/
def statusUpdateOk (_oldStatus newStatus : String) : Bool :=
  tradeStatusOk newStatus

/-- The status set claimed by the specification for trades
(stated from the spec's words, for comparison with the schema's ENUM). -/
def specTradeStatusSet : List String :=
  ["PROPOSED", "ACTIVE", "EXECUTED", "FAILED", "EXPIRED", "CLOSED"]

/-- A row of the `trade_votes` table. -/
structure VoteRow where
  id : Nat
  trade_id : Nat
  user_id : Nat
  vote : String
deriving DecidableEq

/-- Insert into `trade_votes`: guarded by the primary key on `id` and by
`UNIQUE KEY unique_vote (trade_id, user_id)`.  `none` means the storage
layer rejects the row; the table is unchanged. -/
def insertVote (tbl : List VoteRow) (r : VoteRow) : Option (List VoteRow) :=
  if tbl.any fun q => q.id == r.id then none
  else if tbl.any fun q => q.trade_id == r.trade_id && q.user_id == r.user_id then none
  else some (tbl ++ [r])

/-- A row of the `trade_acceptances` table (the commitments table). -/
structure AcceptanceRow where
  id : Nat
  user_id : Nat
  trade_id : Nat
  allocation_amount : Option ℚ
  allocation_shares : Option Int
  status : String
deriving DecidableEq

/-- Insert into `trade_acceptances`: the schema declares only the primary
key on `id` (and foreign keys); there is no unique key on
`(trade_id, user_id)`. -/
def insertAcceptance (tbl : List AcceptanceRow) (r : AcceptanceRow) :
    Option (List AcceptanceRow) :=
  if tbl.any fun q => q.id == r.id then none
  else some (tbl ++ [r])

end Schema

namespace NotificationModal

/-- The component's `allocType` state: `'dollar' | 'shares'`. -/
inductive AllocType
  | dollar
  | shares
deriving DecidableEq

/-- The SELL visibility guard: the modal renders `null` for a SELL trade
unless the user holds the trade's symbol with a positive share count
(`if (!pos || pos.shares <= 0) return null`).  Positions are
`(symbol, shares)` pairs. -/
def sellVisible (tradeAction tradeSymbol : String)
    (positions : List (String × ℚ)) : Bool :=
  if tradeAction == "SELL" then
    match positions.find? (fun p => p.1 == tradeSymbol) with
    | none => false
    | some p => decide (0 < p.2)
  else true

/-- The `userLiquidity !== null && Number(allocation) > userLiquidity`
check inside `handleInputSubmit`. -/
def liquidityExceeded (userLiquidity : Option ℚ) (a : ℚ) : Bool :=
  match userLiquidity with
  | some l => decide (l < a)
  | none => false

/-- `handleInputSubmit`: rejects empty/non-numeric/non-positive input,
then a BUY dollar allocation above the fetched liquidity, then a SELL
share allocation above the owned share count.  `allocation = none`
stands for an empty or non-numeric input; the result is the error
message shown, or `none` when the submission proceeds. -/
def handleInputSubmit (allocType : AllocType) (tradeAction : String)
    (allocation : Option ℚ) (userLiquidity : Option ℚ) (userShares : ℚ) :
    Option String :=
  match allocation with
  | none => some "Enter a valid positive number"
  | some a =>
    if a ≤ 0 then some "Enter a valid positive number"
    else if allocType = AllocType.dollar ∧ tradeAction = "BUY" ∧
        liquidityExceeded userLiquidity a = true then
      some "Cannot allocate more than your available liquidity"
    else if allocType = AllocType.shares ∧ tradeAction = "SELL" ∧
        userShares < a then
      some "Cannot sell more shares than you own"
    else none

/-- The JSON body posted to `/api/trade_acceptances`. -/
structure Body where
  trade_id : Nat
  user_id : Nat
  status : String
  allocation_amount : Option ℚ
  allocation_shares : Option ℚ
deriving DecidableEq

/-- The body construction in `submitResponse`: `allocation_amount` is set
only when the response is ACCEPTED with `allocType === 'dollar'` on a BUY
trade, `allocation_shares` only when ACCEPTED with
`allocType === 'shares'` on a SELL trade. -/
def mkBody (tradeId userId : Nat) (action : String) (allocType : AllocType)
    (tradeAction : String) (allocation : Option ℚ) : Body :=
  { trade_id := tradeId
    user_id := userId
    status := action
    allocation_amount :=
      if action = "ACCEPTED" ∧ allocType = AllocType.dollar ∧ tradeAction = "BUY" then
        allocation
      else none
    allocation_shares :=
      if action = "ACCEPTED" ∧ allocType = AllocType.shares ∧ tradeAction = "SELL" then
        allocation
      else none }

end NotificationModal

namespace NM16

/-- The `!allocation || isNaN(Number(allocation)) || Number(allocation) <= 0`
test of the part_016 component as a predicate on the parsed input. -/
def badAlloc (allocation : Option ℚ) : Bool :=
  match allocation with
  | none => true
  | some a => decide (a ≤ 0)

/-- `submitResponse` of the part_016 component: the positive-allocation
validation fires only for ACCEPTED dollar-typed BUY or shares-typed SELL
inputs; otherwise the body is built and posted.  The result is `none`
when validation rejects the submission, otherwise the posted body. -/
def submitResponse (tradeId userId : Nat) (action : String)
    (allocType : NotificationModal.AllocType) (tradeAction : String)
    (allocation : Option ℚ) : Option NotificationModal.Body :=
  if action = "ACCEPTED" ∧
      ((allocType = NotificationModal.AllocType.dollar ∧ tradeAction = "BUY" ∧
          badAlloc allocation = true) ∨
        (allocType = NotificationModal.AllocType.shares ∧ tradeAction = "SELL" ∧
          badAlloc allocation = true)) then
    none
  else
    some
      { trade_id := tradeId
        user_id := userId
        status := action
        allocation_amount :=
          if action = "ACCEPTED" ∧ allocType = NotificationModal.AllocType.dollar ∧
              tradeAction = "BUY" then
            allocation
          else none
        allocation_shares :=
          if action = "ACCEPTED" ∧ allocType = NotificationModal.AllocType.shares ∧
              tradeAction = "SELL" then
            allocation
          else none }

end NM16

namespace Ledger

/-- Modelled from the spec: the trade action set `{BUY, SELL}`. -/
inductive TAction
  | buy
  | sell
deriving DecidableEq

/-- Modelled from the spec: the trade lifecycle status set
`{PROPOSED, ACTIVE, EXECUTED, FAILED, EXPIRED, CLOSED}`. -/
inductive TStatus
  | proposed
  | active
  | executed
  | failed
  | expired
  | closed
deriving DecidableEq

/-- Modelled from the spec: the commitment kind `{ACCEPTED, DENIED}`. -/
inductive CKind
  | accepted
  | denied
deriving DecidableEq

/-- Modelled from the spec: the commitment outcome set
`{PENDING, SETTLED, FAILED, RELEASED}`. -/
inductive Outcome
  | pending
  | settled
  | failed
  | released
deriving DecidableEq

/-- Modelled from the spec: a commitment's allocation — a dollar amount
for an ACCEPTED BUY, a share count (with its symbol) for an ACCEPTED
SELL, nothing for a DENIED response. -/
inductive Alloc
  | buyCash (amount : ℚ)
  | sellShares (symbol : String) (count : ℚ)
  | denied
deriving DecidableEq

/-- Modelled from the spec: a Trade record owned by TradeRegistry. -/
structure Trade where
  id : Nat
  symbol : String
  action : TAction
  status : TStatus
  expiresAt : Nat
deriving DecidableEq

/-- Modelled from the spec: a Commitment record owned by AllocationLedger. -/
structure Commitment where
  tradeId : Nat
  userId : Nat
  alloc : Alloc
  outcome : Outcome
deriving DecidableEq

/-- Modelled from the spec: the durable state — AccountStore's cash
balances and share holdings, TradeRegistry's trades, and
AllocationLedger's commitments. -/
structure LedgerState where
  cash : Nat → ℚ
  shares : Nat → String → ℚ
  trades : List Trade
  commitments : List Commitment

/-- Modelled from the spec: the error taxonomy of §7. -/
inductive Err
  | insufficientFunds
  | insufficientShares
  | duplicateCommitment
  | tradeNotActive
  | tradeExpired
  | tradeNotFound
  | staleTransition
  | invalidAmount
  | invalidPrice
  | settlementReplay
deriving DecidableEq

/-- The cash a commitment holds in reserve against a given user:
its dollar amount when it is that user's still-PENDING BUY allocation,
and zero otherwise. -/
def cashContrib (u : Nat) (c : Commitment) : ℚ :=
  if c.userId = u ∧ c.outcome = Outcome.pending then
    match c.alloc with
    | Alloc.buyCash a => a
    | _ => 0
  else 0

/-- The shares a commitment holds in reserve against a given user and
symbol: its share count when it is that user's still-PENDING SELL
allocation on that symbol, and zero otherwise. -/
def shareContrib (u : Nat) (sym : String) (c : Commitment) : ℚ :=
  if c.userId = u ∧ c.outcome = Outcome.pending then
    match c.alloc with
    | Alloc.sellShares s cnt => if s = sym then cnt else 0
    | _ => 0
  else 0

/-- Total cash reserved by a user's PENDING BUY commitments. -/
def pendingCashSum (cs : List Commitment) (u : Nat) : ℚ :=
  (cs.map (cashContrib u)).sum

/-- Total shares of a symbol reserved by a user's PENDING SELL commitments. -/
def pendingShareSum (cs : List Commitment) (u : Nat) (sym : String) : ℚ :=
  (cs.map (shareContrib u sym)).sum

/-- Modelled from the spec: available cash — stored balance minus the sum
of the user's PENDING reservations. -/
def availCash (s : LedgerState) (u : Nat) : ℚ :=
  s.cash u - pendingCashSum s.commitments u

/-- Modelled from the spec: available shares — owned shares minus the sum
of the user's PENDING sell reservations on that symbol. -/
def availShares (s : LedgerState) (u : Nat) (sym : String) : ℚ :=
  s.shares u sym - pendingShareSum s.commitments u sym

/-- Look up a trade by id. -/
def findTrade (s : LedgerState) (tid : Nat) : Option Trade :=
  s.trades.find? (fun t => t.id == tid)

/-- Whether a commitment already exists for `(tradeId, userId)`. -/
def hasCommitment (s : LedgerState) (tid uid : Nat) : Bool :=
  s.commitments.any fun c => c.tradeId == tid && c.userId == uid

/-- Modelled from the spec: `AllocationLedger.submit` (§4.3), with the
TradeExpired check of §8 authoritative over an already-EXPIRED status,
and the frontend's positive-allocation validation.  Errors return the
state unchanged: the reservation and the commitment insert share one
transactional boundary, so either both happen or neither does. -/
def submit (s : LedgerState) (tid uid : Nat) (kind : CKind) (amount : ℚ)
    (now : Nat) : LedgerState × Option Err :=
  match findTrade s tid with
  | none => (s, some Err.tradeNotFound)
  | some t =>
    if t.status = TStatus.expired ∨ t.expiresAt < now then
      (s, some Err.tradeExpired)
    else if t.status ≠ TStatus.active then (s, some Err.tradeNotActive)
    else if hasCommitment s tid uid then (s, some Err.duplicateCommitment)
    else
      match kind with
      | CKind.denied =>
        ({ s with commitments :=
            ⟨tid, uid, Alloc.denied, Outcome.settled⟩ :: s.commitments }, none)
      | CKind.accepted =>
        if amount ≤ 0 then (s, some Err.invalidAmount)
        else
          match t.action with
          | TAction.buy =>
            if availCash s uid < amount then (s, some Err.insufficientFunds)
            else
              ({ s with commitments :=
                  ⟨tid, uid, Alloc.buyCash amount, Outcome.pending⟩ ::
                    s.commitments }, none)
          | TAction.sell =>
            if s.shares uid t.symbol ≤ 0 then (s, some Err.insufficientShares)
            else if availShares s uid t.symbol < amount then
              (s, some Err.insufficientShares)
            else
              ({ s with commitments :=
                  ⟨tid, uid, Alloc.sellShares t.symbol amount, Outcome.pending⟩ ::
                    s.commitments }, none)

/-- Update one trade's status in the registry. -/
def setTradeStatus (ts : List Trade) (tid : Nat) (st : TStatus) : List Trade :=
  ts.map fun t => if t.id == tid then { t with status := st } else t

/-- Modelled from the spec: `TradeRegistry.open` — the external strategy
engine opens a fresh trade ACTIVE with its deadline; re-opening an
existing id is a stale PROPOSED→ACTIVE transition. -/
def openTrade (s : LedgerState) (tid : Nat) (symbol : String)
    (action : TAction) (expiresAt : Nat) : LedgerState × Option Err :=
  match findTrade s tid with
  | some _ => (s, some Err.staleTransition)
  | none =>
    ({ s with trades := ⟨tid, symbol, action, TStatus.active, expiresAt⟩ ::
        s.trades }, none)

/-- Modelled from the spec: the status transition of
`SettlementProcessor.settle` — a compare-and-swap ACTIVE→EXECUTED or
ACTIVE→FAILED, failing with StaleTransition when the current status is
not ACTIVE. -/
def settleTrade (s : LedgerState) (tid : Nat) (success : Bool) :
    LedgerState × Option Err :=
  match findTrade s tid with
  | none => (s, some Err.tradeNotFound)
  | some t =>
    if t.status = TStatus.active then
      let toStatus := if success then TStatus.executed else TStatus.failed
      ({ s with trades := setTradeStatus s.trades tid toStatus }, none)
    else (s, some Err.staleTransition)

/-- Modelled from the spec: the ExpiryReaper's compare-and-swap
ACTIVE→EXPIRED, applicable only once the deadline has passed. -/
def reap (s : LedgerState) (tid : Nat) (now : Nat) : LedgerState × Option Err :=
  match findTrade s tid with
  | none => (s, some Err.tradeNotFound)
  | some t =>
    if t.status = TStatus.active ∧ t.expiresAt < now then
      ({ s with trades := setTradeStatus s.trades tid TStatus.expired }, none)
    else (s, some Err.staleTransition)

/-- First still-PENDING commitment for `(tradeId, userId)`. -/
def findPending (cs : List Commitment) (tid uid : Nat) : Option Commitment :=
  match cs with
  | [] => none
  | c :: rest =>
    if c.tradeId = tid ∧ c.userId = uid ∧ c.outcome = Outcome.pending then some c
    else findPending rest tid uid

/-- Resolve the first still-PENDING commitment for `(tradeId, userId)` to
the given outcome, leaving every other commitment untouched (the outcome
is mutated exactly once; the record is otherwise immutable). -/
def markFirst (cs : List Commitment) (tid uid : Nat) (o : Outcome) :
    List Commitment :=
  match cs with
  | [] => []
  | c :: rest =>
    if c.tradeId = tid ∧ c.userId = uid ∧ c.outcome = Outcome.pending then
      { c with outcome := o } :: rest
    else c :: markFirst rest tid uid o

/-- Modelled from the spec: one step of `SettlementProcessor.settle`'s
atomic-per-commitment sweep.  On an EXECUTED trade the held reservation
is debited and the opposite side credited at the execution price (a BUY
debits cash and credits shares, a SELL debits shares and credits cash)
and the commitment becomes SETTLED; on a FAILED trade the reservation is
released, restoring the pre-reservation balance, and the commitment
becomes FAILED.  Re-settling an already-resolved commitment is
SettlementReplay, never a double debit/credit. -/
def settleOne (s : LedgerState) (tid uid : Nat) (price : ℚ) :
    LedgerState × Option Err :=
  match findTrade s tid with
  | none => (s, some Err.tradeNotFound)
  | some t =>
    match t.status with
    | TStatus.executed =>
      if price ≤ 0 then (s, some Err.invalidPrice)
      else
        match findPending s.commitments tid uid with
        | none => (s, some Err.settlementReplay)
        | some c =>
          match c.alloc with
          | Alloc.buyCash a =>
            ({ s with
                cash := fun v => if v = uid then s.cash v - a else s.cash v
                shares := fun v sym =>
                  if v = uid ∧ sym = t.symbol then s.shares v sym + a / price
                  else s.shares v sym
                commitments := markFirst s.commitments tid uid Outcome.settled },
              none)
          | Alloc.sellShares sym cnt =>
            ({ s with
                cash := fun v => if v = uid then s.cash v + cnt * price else s.cash v
                shares := fun v sy =>
                  if v = uid ∧ sy = sym then s.shares v sy - cnt
                  else s.shares v sy
                commitments := markFirst s.commitments tid uid Outcome.settled },
              none)
          | Alloc.denied => (s, some Err.settlementReplay)
    | TStatus.failed =>
      match findPending s.commitments tid uid with
      | none => (s, some Err.settlementReplay)
      | some _ =>
        ({ s with commitments := markFirst s.commitments tid uid Outcome.failed },
          none)
    | _ => (s, some Err.staleTransition)

/-- Modelled from the spec: one step of the ExpiryReaper's release sweep —
on an EXPIRED trade, a still-PENDING commitment's reservation is released
exactly as the FAILED settlement path does, marking the outcome
RELEASED. -/
def expireOne (s : LedgerState) (tid uid : Nat) : LedgerState × Option Err :=
  match findTrade s tid with
  | none => (s, some Err.tradeNotFound)
  | some t =>
    if t.status = TStatus.expired then
      match findPending s.commitments tid uid with
      | none => (s, some Err.settlementReplay)
      | some _ =>
        ({ s with commitments := markFirst s.commitments tid uid Outcome.released },
          none)
    else (s, some Err.staleTransition)

/-- Modelled from the spec: `EquityCalculator.computeEquity` — cash plus
the value of the holdings over the given symbol universe at live prices,
computed by accumulation as a read-only aggregation. -/
def computeEquity (s : LedgerState) (syms : List String)
    (prices : String → ℚ) (u : Nat) : ℚ :=
  syms.foldl (fun acc sym => acc + s.shares u sym * prices sym) (s.cash u)

/-- The atomic operations of the concurrency model (§5): submissions are
serialized per account and settlement/expiry sweeps are atomic per
commitment, so every concurrent execution is a sequence of these. -/
inductive Op
  | openTrade (tid : Nat) (symbol : String) (action : TAction) (expiresAt : Nat)
  | submit (tid uid : Nat) (kind : CKind) (amount : ℚ) (now : Nat)
  | settleTrade (tid : Nat) (success : Bool)
  | reap (tid : Nat) (now : Nat)
  | settleOne (tid uid : Nat) (price : ℚ)
  | expireOne (tid uid : Nat)
  | equityQuery (uid : Nat) (syms : List String) (prices : String → ℚ)

/-- Apply one atomic operation. -/
def applyOp (s : LedgerState) : Op → LedgerState × Option Err
  | Op.openTrade tid sym a e => openTrade s tid sym a e
  | Op.submit tid uid k amt now => submit s tid uid k amt now
  | Op.settleTrade tid suc => settleTrade s tid suc
  | Op.reap tid now => reap s tid now
  | Op.settleOne tid uid p => settleOne s tid uid p
  | Op.expireOne tid uid => expireOne s tid uid
  | Op.equityQuery _ _ _ => (s, none)

/-- Run a sequence of atomic operations. -/
def run (s : LedgerState) : List Op → LedgerState
  | [] => s
  | op :: ops => run (applyOp s op).1 ops

/-- An allocation's magnitudes are non-negative. -/
def allocOk : Alloc → Prop
  | Alloc.buyCash a => 0 ≤ a
  | Alloc.sellShares _ cnt => 0 ≤ cnt
  | Alloc.denied => True

/-- The inductive solvency invariant: available cash and available shares
are non-negative for every user and symbol, and every recorded
allocation is non-negative. -/
structure Inv (s : LedgerState) : Prop where
  cashNonneg : ∀ u, 0 ≤ availCash s u
  sharesNonneg : ∀ u sym, 0 ≤ availShares s u sym
  allocsOk : ∀ c ∈ s.commitments, allocOk c.alloc

/-- A system state holding only accounts: the onboarding state, before
any trade or commitment exists. -/
def initState (cash₀ : Nat → ℚ) (shares₀ : Nat → String → ℚ) : LedgerState :=
  { cash := cash₀, shares := shares₀, trades := [], commitments := [] }

theorem cashContrib_nonpending (u : Nat) (c : Commitment)
    (h : c.outcome ≠ Outcome.pending) : cashContrib u c = 0 := by
  unfold cashContrib
  rw [if_neg]
  intro hc
  exact h hc.2

theorem shareContrib_nonpending (u : Nat) (sym : String) (c : Commitment)
    (h : c.outcome ≠ Outcome.pending) : shareContrib u sym c = 0 := by
  unfold shareContrib
  rw [if_neg]
  intro hc
  exact h hc.2

theorem cashContrib_nonneg (u : Nat) (c : Commitment) (h : allocOk c.alloc) :
    0 ≤ cashContrib u c := by
  unfold cashContrib
  split
  · cases hA : c.alloc with
    | buyCash a => rw [hA] at h; exact h
    | sellShares sy cnt => simp
    | denied => simp
  · exact le_refl 0

theorem shareContrib_nonneg (u : Nat) (sym : String) (c : Commitment)
    (h : allocOk c.alloc) : 0 ≤ shareContrib u sym c := by
  unfold shareContrib
  split
  · cases hA : c.alloc with
    | buyCash a => simp
    | sellShares sy cnt =>
      rw [hA] at h
      show 0 ≤ if sy = sym then cnt else 0
      by_cases hsy : sy = sym
      · rw [if_pos hsy]; exact h
      · rw [if_neg hsy]
    | denied => simp
  · exact le_refl 0

theorem pendingCashSum_cons (c : Commitment) (cs : List Commitment) (u : Nat) :
    pendingCashSum (c :: cs) u = cashContrib u c + pendingCashSum cs u := by
  simp [pendingCashSum]

theorem pendingShareSum_cons (c : Commitment) (cs : List Commitment) (u : Nat)
    (sym : String) :
    pendingShareSum (c :: cs) u sym
      = shareContrib u sym c + pendingShareSum cs u sym := by
  simp [pendingShareSum]

theorem findPending_mem (cs : List Commitment) (tid uid : Nat) (c : Commitment)
    (h : findPending cs tid uid = some c) : c ∈ cs := by
  induction cs with
  | nil => simp [findPending] at h
  | cons d rest ih =>
    unfold findPending at h
    by_cases hd : d.tradeId = tid ∧ d.userId = uid ∧ d.outcome = Outcome.pending
    · rw [if_pos hd] at h
      injection h with h
      subst h
      exact List.mem_cons_self _ _
    · rw [if_neg hd] at h
      exact List.mem_cons_of_mem _ (ih h)

theorem findPending_spec (cs : List Commitment) (tid uid : Nat) (c : Commitment)
    (h : findPending cs tid uid = some c) :
    c.tradeId = tid ∧ c.userId = uid ∧ c.outcome = Outcome.pending := by
  induction cs with
  | nil => simp [findPending] at h
  | cons d rest ih =>
    unfold findPending at h
    by_cases hd : d.tradeId = tid ∧ d.userId = uid ∧ d.outcome = Outcome.pending
    · rw [if_pos hd] at h
      injection h with h
      subst h
      exact hd
    · rw [if_neg hd] at h
      exact ih h

theorem markFirst_pendingCashSum (cs : List Commitment) (tid uid : Nat)
    (o : Outcome) (ho : o ≠ Outcome.pending) (c : Commitment)
    (h : findPending cs tid uid = some c) (u : Nat) :
    pendingCashSum (markFirst cs tid uid o) u
      = pendingCashSum cs u - cashContrib u c := by
  induction cs with
  | nil => simp [findPending] at h
  | cons d rest ih =>
    unfold findPending at h
    unfold markFirst
    by_cases hd : d.tradeId = tid ∧ d.userId = uid ∧ d.outcome = Outcome.pending
    · rw [if_pos hd] at h
      injection h with h
      subst h
      rw [if_pos hd, pendingCashSum_cons, pendingCashSum_cons,
        cashContrib_nonpending u { d with outcome := o } ho]
      ring
    · rw [if_neg hd] at h
      rw [if_neg hd, pendingCashSum_cons, pendingCashSum_cons, ih h]
      ring

theorem markFirst_pendingShareSum (cs : List Commitment) (tid uid : Nat)
    (o : Outcome) (ho : o ≠ Outcome.pending) (c : Commitment)
    (h : findPending cs tid uid = some c) (u : Nat) (sym : String) :
    pendingShareSum (markFirst cs tid uid o) u sym
      = pendingShareSum cs u sym - shareContrib u sym c := by
  induction cs with
  | nil => simp [findPending] at h
  | cons d rest ih =>
    unfold findPending at h
    unfold markFirst
    by_cases hd : d.tradeId = tid ∧ d.userId = uid ∧ d.outcome = Outcome.pending
    · rw [if_pos hd] at h
      injection h with h
      subst h
      rw [if_pos hd, pendingShareSum_cons, pendingShareSum_cons,
        shareContrib_nonpending u sym { d with outcome := o } ho]
      ring
    · rw [if_neg hd] at h
      rw [if_neg hd, pendingShareSum_cons, pendingShareSum_cons, ih h]
      ring

theorem markFirst_allocs (cs : List Commitment) (tid uid : Nat) (o : Outcome)
    (h : ∀ d ∈ cs, allocOk d.alloc) :
    ∀ d ∈ markFirst cs tid uid o, allocOk d.alloc := by
  induction cs with
  | nil => simp [markFirst]
  | cons e rest ih =>
    unfold markFirst
    by_cases he : e.tradeId = tid ∧ e.userId = uid ∧ e.outcome = Outcome.pending
    · rw [if_pos he]
      intro d hd
      rcases List.mem_cons.mp hd with h1 | h2
      · subst h1
        exact h e (List.mem_cons_self _ _)
      · exact h d (List.mem_cons_of_mem _ h2)
    · rw [if_neg he]
      intro d hd
      rcases List.mem_cons.mp hd with h1 | h2
      · subst h1
        exact h _ (List.mem_cons_self _ _)
      · exact ih (fun x hx => h x (List.mem_cons_of_mem _ hx)) d h2

theorem Inv.insertCommit {s : LedgerState} (h : Inv s) (c : Commitment)
    (hok : allocOk c.alloc)
    (hc : ∀ u, cashContrib u c ≤ availCash s u)
    (hs : ∀ u sym, shareContrib u sym c ≤ availShares s u sym) :
    Inv { s with commitments := c :: s.commitments } := by
  refine ⟨?_, ?_, ?_⟩
  · intro u
    have e : availCash { s with commitments := c :: s.commitments } u
        = availCash s u - cashContrib u c := by
      simp only [availCash, pendingCashSum_cons]
      ring
    rw [e]
    linarith [hc u]
  · intro u sym
    have e : availShares { s with commitments := c :: s.commitments } u sym
        = availShares s u sym - shareContrib u sym c := by
      simp only [availShares, pendingShareSum_cons]
      ring
    rw [e]
    linarith [hs u sym]
  · intro d hd
    rcases List.mem_cons.mp hd with h1 | h2
    · subst h1
      exact hok
    · exact h.allocsOk d h2

theorem Inv.setTrades {s : LedgerState} (h : Inv s) (ts : List Trade) :
    Inv { s with trades := ts } :=
  ⟨h.cashNonneg, h.sharesNonneg, h.allocsOk⟩

theorem Inv.release {s : LedgerState} (h : Inv s) (tid uid : Nat) (o : Outcome)
    (ho : o ≠ Outcome.pending) (c : Commitment)
    (hf : findPending s.commitments tid uid = some c) :
    Inv { s with commitments := markFirst s.commitments tid uid o } := by
  have hok := h.allocsOk c (findPending_mem _ _ _ _ hf)
  refine ⟨?_, ?_, ?_⟩
  · intro u
    have e : availCash { s with commitments := markFirst s.commitments tid uid o } u
        = availCash s u + cashContrib u c := by
      simp only [availCash, markFirst_pendingCashSum _ _ _ _ ho _ hf]
      ring
    rw [e]
    have := cashContrib_nonneg u c hok
    linarith [h.cashNonneg u]
  · intro u sym
    have e : availShares
          { s with commitments := markFirst s.commitments tid uid o } u sym
        = availShares s u sym + shareContrib u sym c := by
      simp only [availShares, markFirst_pendingShareSum _ _ _ _ ho _ hf]
      ring
    rw [e]
    have := shareContrib_nonneg u sym c hok
    linarith [h.sharesNonneg u sym]
  · exact markFirst_allocs _ _ _ _ h.allocsOk

theorem cashContrib_buy (u tid uid : Nat) (a : ℚ) :
    cashContrib u ⟨tid, uid, Alloc.buyCash a, Outcome.pending⟩
      = if uid = u then a else 0 := by
  by_cases hu : uid = u <;> simp [cashContrib, hu]

theorem shareContrib_buy (u : Nat) (sym : String) (tid uid : Nat) (a : ℚ) :
    shareContrib u sym ⟨tid, uid, Alloc.buyCash a, Outcome.pending⟩ = 0 := by
  by_cases hu : uid = u <;> simp [shareContrib, hu]

theorem cashContrib_sell (u tid uid : Nat) (sy : String) (cnt : ℚ) :
    cashContrib u ⟨tid, uid, Alloc.sellShares sy cnt, Outcome.pending⟩ = 0 := by
  by_cases hu : uid = u <;> simp [cashContrib, hu]

theorem shareContrib_sell (u : Nat) (sym : String) (tid uid : Nat) (sy : String)
    (cnt : ℚ) :
    shareContrib u sym ⟨tid, uid, Alloc.sellShares sy cnt, Outcome.pending⟩
      = if uid = u ∧ sy = sym then cnt else 0 := by
  by_cases hu : uid = u
  · by_cases hsy : sy = sym <;> simp [shareContrib, hu, hsy]
  · simp [shareContrib, hu]

theorem cashContrib_denied (u tid uid : Nat) :
    cashContrib u ⟨tid, uid, Alloc.denied, Outcome.settled⟩ = 0 :=
  cashContrib_nonpending _ _ (fun hq => Outcome.noConfusion hq)

theorem shareContrib_denied (u : Nat) (sym : String) (tid uid : Nat) :
    shareContrib u sym ⟨tid, uid, Alloc.denied, Outcome.settled⟩ = 0 :=
  shareContrib_nonpending _ _ _ (fun hq => Outcome.noConfusion hq)

theorem inv_openTrade (s : LedgerState) (tid : Nat) (sym : String)
    (a : TAction) (e : Nat) (h : Inv s) : Inv (openTrade s tid sym a e).1 := by
  unfold openTrade
  cases hf : findTrade s tid with
  | none => exact Inv.setTrades h _
  | some t => exact h

theorem inv_settleTrade (s : LedgerState) (tid : Nat) (success : Bool)
    (h : Inv s) : Inv (settleTrade s tid success).1 := by
  unfold settleTrade
  split
  · exact h
  split
  · exact Inv.setTrades h _
  · exact h

theorem inv_reap (s : LedgerState) (tid now : Nat) (h : Inv s) :
    Inv (reap s tid now).1 := by
  unfold reap
  split
  · exact h
  split
  · exact Inv.setTrades h _
  · exact h

theorem inv_submit (s : LedgerState) (tid uid : Nat) (k : CKind) (amt : ℚ)
    (now : Nat) (h : Inv s) : Inv (submit s tid uid k amt now).1 := by
  unfold submit
  split
  · exact h
  rename_i t hf
  split
  · exact h
  split
  · exact h
  split
  · exact h
  split
  · refine Inv.insertCommit h _ trivial ?_ ?_
    · intro u
      rw [cashContrib_denied]
      exact h.cashNonneg u
    · intro u sym
      rw [shareContrib_denied]
      exact h.sharesNonneg u sym
  · split
    · exact h
    rename_i h4
    split
    · split
      · exact h
      rename_i h5
      refine Inv.insertCommit h _ (le_of_lt (lt_of_not_le h4)) ?_ ?_
      · intro u
        rw [cashContrib_buy]
        by_cases hu : uid = u
        · rw [if_pos hu, ← hu]
          exact not_lt.mp h5
        · rw [if_neg hu]
          exact h.cashNonneg u
      · intro u sym
        rw [shareContrib_buy]
        exact h.sharesNonneg u sym
    · split
      · exact h
      split
      · exact h
      rename_i h5 h6
      refine Inv.insertCommit h _ (le_of_lt (lt_of_not_le h4)) ?_ ?_
      · intro u
        rw [cashContrib_sell]
        exact h.cashNonneg u
      · intro u sym
        rw [shareContrib_sell]
        by_cases hu : uid = u ∧ t.symbol = sym
        · rw [if_pos hu, ← hu.1, ← hu.2]
          exact not_lt.mp h6
        · rw [if_neg hu]
          exact h.sharesNonneg u sym

theorem inv_settleOne (s : LedgerState) (tid uid : Nat) (price : ℚ)
    (h : Inv s) : Inv (settleOne s tid uid price).1 := by
  unfold settleOne
  split
  · exact h
  rename_i t hf
  split
  · -- trade status EXECUTED: debit the reservation, credit the other side
    split
    · exact h
    rename_i hp
    have hp' : 0 < price := lt_of_not_le hp
    split
    · exact h
    rename_i c hfp
    obtain ⟨hct, hcu, hco⟩ := findPending_spec _ _ _ _ hfp
    have hok := h.allocsOk c (findPending_mem _ _ _ _ hfp)
    split
    · rename_i a hA
      have ha : 0 ≤ a := by rw [hA] at hok; exact hok
      have hcc : ∀ u, cashContrib u c = if uid = u then a else 0 := by
        intro u
        unfold cashContrib
        by_cases hu : uid = u
        · rw [if_pos ⟨hcu.trans hu, hco⟩, hA, if_pos hu]
        · rw [if_neg (fun hx => hu (hcu.symm.trans hx.1)), if_neg hu]
      have hsc : ∀ u sym, shareContrib u sym c = 0 := by
        intro u sym
        unfold shareContrib
        rw [hA]
        split
        · rfl
        · rfl
      refine ⟨?_, ?_, ?_⟩
      · intro u
        have e1 : pendingCashSum (markFirst s.commitments tid uid
              Outcome.settled) u
            = pendingCashSum s.commitments u - cashContrib u c :=
          markFirst_pendingCashSum _ _ _ _
            (fun hq => Outcome.noConfusion hq) _ hfp u
        show 0 ≤ (if u = uid then s.cash u - a else s.cash u)
          - pendingCashSum (markFirst s.commitments tid uid
              Outcome.settled) u
        rw [e1, hcc u]
        by_cases hu : u = uid
        · rw [if_pos hu, if_pos hu.symm, hu]
          have := h.cashNonneg uid
          unfold availCash at this
          linarith
        · rw [if_neg hu, if_neg (fun hx => hu hx.symm)]
          have := h.cashNonneg u
          unfold availCash at this
          linarith
      · intro u sym
        have e1 : pendingShareSum (markFirst s.commitments tid uid
              Outcome.settled) u sym
            = pendingShareSum s.commitments u sym - shareContrib u sym c :=
          markFirst_pendingShareSum _ _ _ _
            (fun hq => Outcome.noConfusion hq) _ hfp u sym
        show 0 ≤ (if u = uid ∧ sym = t.symbol
              then s.shares u sym + a / price else s.shares u sym)
          - pendingShareSum (markFirst s.commitments tid uid
              Outcome.settled) u sym
        rw [e1, hsc u sym]
        have hdiv : 0 ≤ a / price := div_nonneg ha (le_of_lt hp')
        have := h.sharesNonneg u sym
        unfold availShares at this
        by_cases hu : u = uid ∧ sym = t.symbol
        · rw [if_pos hu]
          linarith
        · rw [if_neg hu]
          linarith
      · exact markFirst_allocs _ _ _ _ h.allocsOk
    · rename_i sy cnt hA
      have hcnt : 0 ≤ cnt := by rw [hA] at hok; exact hok
      have hcc : ∀ u, cashContrib u c = 0 := by
        intro u
        unfold cashContrib
        rw [hA]
        split
        · rfl
        · rfl
      have hsc : ∀ u sym, shareContrib u sym c
          = if uid = u ∧ sy = sym then cnt else 0 := by
        intro u sym
        unfold shareContrib
        by_cases hu : uid = u
        · rw [if_pos ⟨hcu.trans hu, hco⟩, hA]
          by_cases hsy : sy = sym
          · rw [if_pos ⟨hu, hsy⟩]
            show (if sy = sym then cnt else 0) = cnt
            rw [if_pos hsy]
          · rw [if_neg (fun hx => hsy hx.2)]
            show (if sy = sym then cnt else 0) = 0
            rw [if_neg hsy]
        · rw [if_neg (fun hx => hu (hcu.symm.trans hx.1)),
            if_neg (fun hx => hu hx.1)]
      refine ⟨?_, ?_, ?_⟩
      · intro u
        have e1 : pendingCashSum (markFirst s.commitments tid uid
              Outcome.settled) u
            = pendingCashSum s.commitments u - cashContrib u c :=
          markFirst_pendingCashSum _ _ _ _
            (fun hq => Outcome.noConfusion hq) _ hfp u
        show 0 ≤ (if u = uid then s.cash u + cnt * price else s.cash u)
          - pendingCashSum (markFirst s.commitments tid uid
              Outcome.settled) u
        rw [e1, hcc u]
        have hmul : 0 ≤ cnt * price := mul_nonneg hcnt (le_of_lt hp')
        have := h.cashNonneg u
        unfold availCash at this
        by_cases hu : u = uid
        · rw [if_pos hu]
          linarith
        · rw [if_neg hu]
          linarith
      · intro u sym
        have e1 : pendingShareSum (markFirst s.commitments tid uid
              Outcome.settled) u sym
            = pendingShareSum s.commitments u sym - shareContrib u sym c :=
          markFirst_pendingShareSum _ _ _ _
            (fun hq => Outcome.noConfusion hq) _ hfp u sym
        show 0 ≤ (if u = uid ∧ sym = sy
              then s.shares u sym - cnt else s.shares u sym)
          - pendingShareSum (markFirst s.commitments tid uid
              Outcome.settled) u sym
        rw [e1, hsc u sym]
        have := h.sharesNonneg u sym
        unfold availShares at this
        by_cases hu : u = uid ∧ sym = sy
        · rw [if_pos hu, if_pos ⟨hu.1.symm, hu.2.symm⟩]
          linarith
        · rw [if_neg hu,
            if_neg (fun hx => hu ⟨hx.1.symm, hx.2.symm⟩)]
          linarith
      · exact markFirst_allocs _ _ _ _ h.allocsOk
    · exact h
  · -- trade status FAILED: release the reservation
    split
    · exact h
    rename_i c hfp
    exact Inv.release h tid uid Outcome.failed
      (fun hq => Outcome.noConfusion hq) c hfp
  · exact h

theorem inv_expireOne (s : LedgerState) (tid uid : Nat) (h : Inv s) :
    Inv (expireOne s tid uid).1 := by
  unfold expireOne
  split
  · exact h
  split
  · split
    · exact h
    rename_i c hfp
    exact Inv.release h tid uid Outcome.released
      (fun hq => Outcome.noConfusion hq) c hfp
  · exact h

theorem inv_applyOp (s : LedgerState) (op : Op) (h : Inv s) :
    Inv (applyOp s op).1 := by
  cases op with
  | openTrade tid sym a e => exact inv_openTrade s tid sym a e h
  | submit tid uid k amt now => exact inv_submit s tid uid k amt now h
  | settleTrade tid suc => exact inv_settleTrade s tid suc h
  | reap tid now => exact inv_reap s tid now h
  | settleOne tid uid p => exact inv_settleOne s tid uid p h
  | expireOne tid uid => exact inv_expireOne s tid uid h
  | equityQuery _ _ _ => exact h

theorem inv_run (s : LedgerState) (ops : List Op) (h : Inv s) :
    Inv (run s ops) := by
  induction ops generalizing s with
  | nil => exact h
  | cons op ops ih => exact ih _ (inv_applyOp s op h)

theorem inv_init (cash₀ : Nat → ℚ) (shares₀ : Nat → String → ℚ)
    (hc : ∀ u, 0 ≤ cash₀ u) (hs : ∀ u sym, 0 ≤ shares₀ u sym) :
    Inv (initState cash₀ shares₀) := by
  refine ⟨?_, ?_, ?_⟩
  · intro u
    show 0 ≤ cash₀ u - pendingCashSum [] u
    simp [pendingCashSum]
    exact hc u
  · intro u sym
    show 0 ≤ shares₀ u sym - pendingShareSum [] u sym
    simp [pendingShareSum]
    exact hs u sym
  · intro c hcm
    simp [initState] at hcm

end Ledger


section Claims

/-- C9: every user account created through `createUser` (the signup path)
starts with a cash balance of exactly 10000.00 — through the explicit
value in the INSERT, and equally through the `users` column default used
by the legacy insert that omits the balance column. -/
theorem C9_initial_balance (tbl : List Schema.UserRow) (nextId : Nat)
    (username email passwordHash : String) (tbl' : List Schema.UserRow)
    (h : Schema.createUser tbl nextId username email passwordHash
      = Except.ok tbl') :
    tbl' = tbl ++ [⟨nextId, username, email, passwordHash, 10000⟩] ∧
    Schema.usersBalanceDefault = 10000 ∧
    Schema.createUserLegacy tbl nextId username email passwordHash
      = Except.ok (tbl ++ [⟨nextId, username, email, passwordHash, 10000⟩]) := by
  unfold Schema.createUser at h
  by_cases hok : Schema.usersInsertOk tbl
      ⟨nextId, username, email, passwordHash, 10000⟩ = true
  · rw [if_pos hok] at h
    injection h with h
    refine ⟨h.symm, rfl, ?_⟩
    simp only [Schema.createUserLegacy, Schema.usersBalanceDefault]
    rw [if_pos hok]
  · rw [if_neg hok] at h
    exact absurd h (by simp)

/-- C9 witness: creating the first user on an empty table yields the
10000.00 starting balance row. -/
theorem C9_initial_balance_witness :
    Schema.usersBalanceDefault = 10000 :=
  (C9_initial_balance [] 1 "alice" "alice@example.com" "hash" _ rfl).2.1

/-- C2 counterexample: the storage layer accepts two
`trade_acceptances` rows with the same `(trade_id, user_id) = (1, 1)`
(only the primary key on `id` is checked), so uniqueness of commitments
per `(tradeId, userId)` is not enforced by a constraint on the
commitments table. -/
theorem C2_counterexample :
    Schema.insertAcceptance
        [⟨1, 1, 1, some 500, none, "ACCEPTED"⟩]
        ⟨2, 1, 1, some 300, none, "ACCEPTED"⟩
      = some [⟨1, 1, 1, some 500, none, "ACCEPTED"⟩,
          ⟨2, 1, 1, some 300, none, "ACCEPTED"⟩] := rfl

/-- C2 amended: the storage layer enforces `(trade_id, user_id)`
uniqueness on `trade_votes` (a duplicate vote insert is rejected and the
existing row is never overwritten), but `trade_acceptances` carries no
such constraint: any acceptance row with a fresh primary key is accepted,
even when its `(trade_id, user_id)` pair already exists. -/
theorem C2_vote_uniqueness :
    (∀ (tbl : List Schema.VoteRow) (r : Schema.VoteRow),
        (tbl.any fun q => q.trade_id == r.trade_id && q.user_id == r.user_id)
            = true →
        Schema.insertVote tbl r = none) ∧
    (∀ (tbl : List Schema.AcceptanceRow) (r : Schema.AcceptanceRow),
        (tbl.any fun q => q.id == r.id) = false →
        Schema.insertAcceptance tbl r = some (tbl ++ [r])) := by
  constructor
  · intro tbl r hdup
    unfold Schema.insertVote
    by_cases hid : (tbl.any fun q => q.id == r.id) = true
    · rw [if_pos hid]
    · rw [if_neg hid, if_pos hdup]
  · intro tbl r hid
    unfold Schema.insertAcceptance
    rw [if_neg (by rw [hid]; exact Bool.false_ne_true)]

/-- C2 witness: a duplicate vote for `(trade_id, user_id) = (3, 4)` is
rejected at the storage layer, while a duplicate acceptance for the same
pair is stored. -/
theorem C2_vote_uniqueness_witness :
    Schema.insertVote [⟨1, 3, 4, "YES"⟩] ⟨2, 3, 4, "NO"⟩ = none ∧
    Schema.insertAcceptance [⟨5, 4, 3, none, some 2, "ACCEPTED"⟩]
        ⟨6, 4, 3, none, some 2, "ACCEPTED"⟩
      = some [⟨5, 4, 3, none, some 2, "ACCEPTED"⟩,
          ⟨6, 4, 3, none, some 2, "ACCEPTED"⟩] :=
  ⟨C2_vote_uniqueness.1 _ _ rfl, C2_vote_uniqueness.2 _ _ rfl⟩

/-- C3 counterexample: the stored status ENUM admits `APPROVED`, which is
not in the status set claimed by the specification, and rejects the
claimed `ACTIVE`; moreover the storage layer accepts the revisiting
update EXECUTED→PROPOSED, so transitions are not one-directional at the
storage layer. -/
theorem C3_counterexample :
    Schema.tradeStatusOk "APPROVED" = true ∧
    Schema.specTradeStatusSet.contains "APPROVED" = false ∧
    Schema.tradeStatusOk "ACTIVE" = false ∧
    Schema.statusUpdateOk "EXECUTED" "PROPOSED" = true := by
  refine ⟨rfl, rfl, rfl, rfl⟩

/-- C3 amended: every trade status admitted by the storage layer lies in
the schema's ENUM {PROPOSED, APPROVED, REJECTED, EXECUTED, CLOSED}, and
the storage layer enforces no monotonicity: any ENUM status may follow
any other, so statuses can be revisited. -/
theorem C3_status_enum :
    (∀ status : String, Schema.tradeStatusOk status = true →
        status ∈ Schema.tradeStatusEnum) ∧
    (∀ oldStatus newStatus : String, newStatus ∈ Schema.tradeStatusEnum →
        Schema.statusUpdateOk oldStatus newStatus = true) := by
  constructor
  · intro st h
    unfold Schema.tradeStatusOk at h
    exact List.mem_of_elem_eq_true h
  · intro o n hn
    unfold Schema.statusUpdateOk Schema.tradeStatusOk
    exact List.elem_eq_true_of_mem hn

/-- C3 witness: `REJECTED` is a storable status, and the storage layer
accepts an update from CLOSED back to PROPOSED. -/
theorem C3_status_enum_witness :
    "REJECTED" ∈ Schema.tradeStatusEnum ∧
    Schema.statusUpdateOk "CLOSED" "PROPOSED" = true :=
  ⟨C3_status_enum.1 "REJECTED" rfl,
    C3_status_enum.2 "CLOSED" "PROPOSED" (by decide)⟩

/-- C4 counterexample: an ACCEPTED response to a BUY trade with the
allocation-type toggle on `shares` passes `handleInputSubmit` (the
liquidity check applies only to dollar-typed input and the share check
only to SELL trades) yet the posted body carries no `allocation_amount` —
and no `allocation_shares` either — refuting the claim that an ACCEPTED
BUY response always carries a dollar `allocation_amount`. -/
theorem C4_counterexample :
    NotificationModal.handleInputSubmit NotificationModal.AllocType.shares
        "BUY" (some 5) (some 100) 0 = none ∧
    (NotificationModal.mkBody 1 1 "ACCEPTED" NotificationModal.AllocType.shares
        "BUY" (some 5)).allocation_amount = none ∧
    (NotificationModal.mkBody 1 1 "ACCEPTED" NotificationModal.AllocType.shares
        "BUY" (some 5)).allocation_shares = none := by
  refine ⟨?_, ?_, ?_⟩ <;> decide

/-- C4 amended: the submission body never carries a mismatched unit —
`allocation_amount` is present only on an ACCEPTED dollar-typed BUY,
`allocation_shares` only on an ACCEPTED shares-typed SELL, and a SELL is
never sized by dollar amount — and the original presence guarantees hold
for the matching unit: an ACCEPTED dollar-typed BUY carries the entered
allocation as `allocation_amount`, and an ACCEPTED shares-typed SELL
(the only allocation type a SELL can have: it is preset and the toggle
is disabled) carries it as `allocation_shares`.  The one failure the
counterexample forces remains: an ACCEPTED BUY whose allocation type is
`shares` carries no allocation at all. -/
theorem C4_allocation_unit (tid uid : Nat) (action : String)
    (allocType : NotificationModal.AllocType) (tradeAction : String)
    (allocation : Option ℚ) :
    ((NotificationModal.mkBody tid uid action allocType tradeAction
          allocation).allocation_amount ≠ none →
      action = "ACCEPTED" ∧ allocType = NotificationModal.AllocType.dollar ∧
        tradeAction = "BUY") ∧
    ((NotificationModal.mkBody tid uid action allocType tradeAction
          allocation).allocation_shares ≠ none →
      action = "ACCEPTED" ∧ allocType = NotificationModal.AllocType.shares ∧
        tradeAction = "SELL") ∧
    (tradeAction = "SELL" →
      (NotificationModal.mkBody tid uid action allocType tradeAction
          allocation).allocation_amount = none) ∧
    ((NotificationModal.mkBody tid uid "ACCEPTED"
          NotificationModal.AllocType.dollar "BUY"
          allocation).allocation_amount = allocation) ∧
    ((NotificationModal.mkBody tid uid "ACCEPTED"
          NotificationModal.AllocType.shares "SELL"
          allocation).allocation_shares = allocation) := by
  refine ⟨?_, ?_, ?_, ?_, ?_⟩
  · intro hne
    by_cases hcond : action = "ACCEPTED" ∧
        allocType = NotificationModal.AllocType.dollar ∧ tradeAction = "BUY"
    · exact hcond
    · exact absurd (by unfold NotificationModal.mkBody; rw [if_neg hcond]) hne
  · intro hne
    by_cases hcond : action = "ACCEPTED" ∧
        allocType = NotificationModal.AllocType.shares ∧ tradeAction = "SELL"
    · exact hcond
    · exact absurd (by unfold NotificationModal.mkBody; rw [if_neg hcond]) hne
  · intro hsell
    unfold NotificationModal.mkBody
    rw [if_neg]
    intro hcond
    rw [hsell] at hcond
    exact absurd hcond.2.2 (by decide)
  · simp [NotificationModal.mkBody]
  · simp [NotificationModal.mkBody]

/-- C4 witness: even with the dollar allocation type forced, a SELL trade
body carries no `allocation_amount`; an ACCEPTED dollar-typed BUY for 5
carries `allocation_amount = 5`, and an ACCEPTED shares-typed SELL for 5
carries `allocation_shares = 5`. -/
theorem C4_allocation_unit_witness :
    (NotificationModal.mkBody 1 2 "ACCEPTED" NotificationModal.AllocType.dollar
        "SELL" (some 5)).allocation_amount = none ∧
    (NotificationModal.mkBody 1 2 "ACCEPTED" NotificationModal.AllocType.dollar
        "BUY" (some 5)).allocation_amount = some 5 ∧
    (NotificationModal.mkBody 1 2 "ACCEPTED" NotificationModal.AllocType.shares
        "SELL" (some 5)).allocation_shares = some 5 :=
  ⟨(C4_allocation_unit 1 2 "ACCEPTED" NotificationModal.AllocType.dollar
      "SELL" (some 5)).2.2.1 rfl,
    (C4_allocation_unit 1 2 "ACCEPTED" NotificationModal.AllocType.dollar
      "BUY" (some 5)).2.2.2.1,
    (C4_allocation_unit 1 2 "ACCEPTED" NotificationModal.AllocType.shares
      "SELL" (some 5)).2.2.2.2⟩

/-- C10: an ACCEPTED response to a BUY trade with the allocation-type
toggle switched to `shares` and an empty allocation input skips the
positive-allocation validation of part_016's `submitResponse` (whose
guard covers only dollar-typed BUY and shares-typed SELL) and posts a
body to `/api/trade_acceptances` containing neither `allocation_amount`
nor `allocation_shares`: a commitment can be submitted as ACCEPTED with
no allocation recorded at all. -/
theorem C10_missing_allocation :
    NM16.submitResponse 1 1 "ACCEPTED" NotificationModal.AllocType.shares
        "BUY" none
      = some (⟨1, 1, "ACCEPTED", none, none⟩ : NotificationModal.Body) := by
  decide

/-- C5: an ACCEPTED submission on a SELL trade requires a positive holding
of the symbol and rejects a share amount beyond the available shares.
The frontend guard is from NotificationModal (the modal is hidden without
a positive position and over-allocation is rejected before any request is
posted); the availability accounting (owned minus other pending sell
reservations) is the spec-modelled `reserveShares` check inside
`Ledger.submit`, which fails with InsufficientShares leaving the state
unchanged. -/
theorem C5_sell_requires_shares :
    (∀ (sym : String) (positions : List (String × ℚ)) (p : String × ℚ),
        positions.find? (fun q => q.1 == sym) = some p → p.2 ≤ 0 →
        NotificationModal.sellVisible "SELL" sym positions = false) ∧
    (∀ (sym : String) (positions : List (String × ℚ)),
        positions.find? (fun q => q.1 == sym) = none →
        NotificationModal.sellVisible "SELL" sym positions = false) ∧
    (∀ (a userShares : ℚ) (userLiquidity : Option ℚ), 0 < a → userShares < a →
        NotificationModal.handleInputSubmit NotificationModal.AllocType.shares
            "SELL" (some a) userLiquidity userShares
          = some "Cannot sell more shares than you own") ∧
    (∀ (s : Ledger.LedgerState) (tid uid : Nat) (t : Ledger.Trade)
        (amount : ℚ) (now : Nat),
        Ledger.findTrade s tid = some t →
        t.action = Ledger.TAction.sell →
        t.status = Ledger.TStatus.active →
        ¬ t.expiresAt < now →
        Ledger.hasCommitment s tid uid = false →
        0 < amount →
        s.shares uid t.symbol ≤ 0 ∨ Ledger.availShares s uid t.symbol < amount →
        Ledger.submit s tid uid Ledger.CKind.accepted amount now
          = (s, some Ledger.Err.insufficientShares)) := by
  refine ⟨?_, ?_, ?_, ?_⟩
  · intro sym positions p hfind hle
    simp only [NotificationModal.sellVisible, hfind]
    simp [decide_eq_false (not_lt.mpr hle)]
  · intro sym positions hfind
    simp [NotificationModal.sellVisible, hfind]
  · intro a userShares userLiquidity hpos hover
    simp [NotificationModal.handleInputSubmit, not_le.mpr hpos, hover]
  · intro s tid uid t amount now hf hact hstat hexp hdup hamt hbad
    by_cases hsh : s.shares uid t.symbol ≤ 0
    · simp [Ledger.submit, hf, hstat, hact, hexp, hdup, not_le.mpr hamt, hsh]
    · rcases hbad with hb | hb
      · exact absurd hb hsh
      · simp [Ledger.submit, hf, hstat, hact, hexp, hdup, not_le.mpr hamt,
          hsh, hb]

/-- A concrete SELL scenario: an active SELL trade on AAPL, every user
holding 10 shares, no commitments yet. -/
def sellState : Ledger.LedgerState :=
  { cash := fun _ => 10000
    shares := fun _ _ => 10
    trades := [⟨1, "AAPL", Ledger.TAction.sell, Ledger.TStatus.active, 100⟩]
    commitments := [] }

/-- C5 witness: the frontend hides the SELL modal for a user with a zero
position and rejects selling 20 of 10 owned shares; the modelled ledger
rejects a 20-share reservation against 10 available with
InsufficientShares, leaving the state unchanged. -/
theorem C5_sell_requires_shares_witness :
    NotificationModal.sellVisible "SELL" "AAPL" [("AAPL", 0)] = false ∧
    NotificationModal.handleInputSubmit NotificationModal.AllocType.shares
        "SELL" (some 20) none 10
      = some "Cannot sell more shares than you own" ∧
    Ledger.submit sellState 1 7 Ledger.CKind.accepted 20 0
      = (sellState, some Ledger.Err.insufficientShares) := by
  refine ⟨?_, ?_, ?_⟩
  · exact C5_sell_requires_shares.1 "AAPL" [("AAPL", 0)] ("AAPL", 0) rfl
      (le_refl 0)
  · exact C5_sell_requires_shares.2.2.1 20 10 none (by norm_num) (by norm_num)
  · refine C5_sell_requires_shares.2.2.2 sellState 1 7
      ⟨1, "AAPL", Ledger.TAction.sell, Ledger.TStatus.active, 100⟩ 20 0
      rfl rfl rfl (by norm_num) rfl (by norm_num) (Or.inr ?_)
    show (10 : ℚ) - Ledger.pendingShareSum [] 7 "AAPL" < 20
    simp [Ledger.pendingShareSum]
    norm_num

/-- C6: an ACCEPTED submission on a BUY trade whose amount exceeds the
available cash fails with InsufficientFunds, returned synchronously as
the submission's own result, and the whole submission aborts atomically —
the resulting state is exactly the pre-submission state, so no partial
Commitment row and no orphaned reservation is left behind.  The frontend
additionally rejects an over-liquidity amount before posting anything. -/
theorem C6_insufficient_funds_atomic :
    (∀ (a l userShares : ℚ), 0 < a → l < a →
        NotificationModal.handleInputSubmit NotificationModal.AllocType.dollar
            "BUY" (some a) (some l) userShares
          = some "Cannot allocate more than your available liquidity") ∧
    (∀ (s : Ledger.LedgerState) (tid uid : Nat) (t : Ledger.Trade)
        (amount : ℚ) (now : Nat),
        Ledger.findTrade s tid = some t →
        t.action = Ledger.TAction.buy →
        t.status = Ledger.TStatus.active →
        ¬ t.expiresAt < now →
        Ledger.hasCommitment s tid uid = false →
        0 < amount →
        Ledger.availCash s uid < amount →
        Ledger.submit s tid uid Ledger.CKind.accepted amount now
          = (s, some Ledger.Err.insufficientFunds)) := by
  constructor
  · intro a l userShares hpos hover
    simp [NotificationModal.handleInputSubmit,
      NotificationModal.liquidityExceeded, not_le.mpr hpos, hover]
  · intro s tid uid t amount now hf hact hstat hexp hdup hamt hin
    simp [Ledger.submit, hf, hstat, hact, hexp, hdup, not_le.mpr hamt, hin]

/-- A concrete BUY scenario: an active BUY trade on TSLA, every user
holding 100 in cash, no commitments yet. -/
def buyState : Ledger.LedgerState :=
  { cash := fun _ => 100
    shares := fun _ _ => 0
    trades := [⟨2, "TSLA", Ledger.TAction.buy, Ledger.TStatus.active, 100⟩]
    commitments := [] }

/-- C6 witness: allocating 500 against 100 of liquidity is rejected by the
frontend, and a 500 reservation against 100 available cash fails with
InsufficientFunds leaving the ledger state unchanged. -/
theorem C6_insufficient_funds_atomic_witness :
    NotificationModal.handleInputSubmit NotificationModal.AllocType.dollar
        "BUY" (some 500) (some 100) 0
      = some "Cannot allocate more than your available liquidity" ∧
    Ledger.submit buyState 2 1 Ledger.CKind.accepted 500 0
      = (buyState, some Ledger.Err.insufficientFunds) := by
  constructor
  · exact C6_insufficient_funds_atomic.1 500 100 0 (by norm_num) (by norm_num)
  · refine C6_insufficient_funds_atomic.2 buyState 2 1
      ⟨2, "TSLA", Ledger.TAction.buy, Ledger.TStatus.active, 100⟩ 500 0
      rfl rfl rfl (by norm_num) rfl (by norm_num) ?_
    show (100 : ℚ) - Ledger.pendingCashSum [] 1 < 500
    simp [Ledger.pendingCashSum]
    norm_num

/-- C7: expiry exclusivity.  A commitment submission against a trade the
reaper has already transitioned to EXPIRED (or whose deadline has passed)
is rejected with TradeExpired, for every submission kind; one arriving
strictly before expiry on an ACTIVE trade is accepted, whatever its kind:
a DENIED response records a SETTLED commitment, an ACCEPTED BUY within
available cash records a PENDING cash reservation, and an ACCEPTED SELL
of a positively-held symbol within available shares records a PENDING
share reservation.  And no
successful submission is silently voided: when the reaper releases a
still-PENDING commitment of an EXPIRED trade, the result is exactly the
RELEASED marking, and every user's available cash and shares grow by
precisely the reservation that commitment held — the reservation is
released, never dropped. -/
theorem C7_expiry_exclusivity :
    (∀ (s : Ledger.LedgerState) (tid uid : Nat) (kind : Ledger.CKind)
        (amount : ℚ) (now : Nat) (t : Ledger.Trade),
        Ledger.findTrade s tid = some t →
        t.status = Ledger.TStatus.expired ∨ t.expiresAt < now →
        Ledger.submit s tid uid kind amount now
          = (s, some Ledger.Err.tradeExpired)) ∧
    (∀ (s : Ledger.LedgerState) (tid uid : Nat) (amount : ℚ) (now : Nat)
        (t : Ledger.Trade),
        Ledger.findTrade s tid = some t →
        t.status = Ledger.TStatus.active →
        now < t.expiresAt →
        Ledger.hasCommitment s tid uid = false →
        Ledger.submit s tid uid Ledger.CKind.denied amount now
          = ({ s with commitments :=
              ⟨tid, uid, Ledger.Alloc.denied, Ledger.Outcome.settled⟩ ::
                s.commitments }, none)) ∧
    (∀ (s : Ledger.LedgerState) (tid uid : Nat) (amount : ℚ) (now : Nat)
        (t : Ledger.Trade),
        Ledger.findTrade s tid = some t →
        t.action = Ledger.TAction.buy →
        t.status = Ledger.TStatus.active →
        now < t.expiresAt →
        Ledger.hasCommitment s tid uid = false →
        0 < amount →
        amount ≤ Ledger.availCash s uid →
        Ledger.submit s tid uid Ledger.CKind.accepted amount now
          = ({ s with commitments :=
              ⟨tid, uid, Ledger.Alloc.buyCash amount, Ledger.Outcome.pending⟩ ::
                s.commitments }, none)) ∧
    (∀ (s : Ledger.LedgerState) (tid uid : Nat) (amount : ℚ) (now : Nat)
        (t : Ledger.Trade),
        Ledger.findTrade s tid = some t →
        t.action = Ledger.TAction.sell →
        t.status = Ledger.TStatus.active →
        now < t.expiresAt →
        Ledger.hasCommitment s tid uid = false →
        0 < amount →
        0 < s.shares uid t.symbol →
        amount ≤ Ledger.availShares s uid t.symbol →
        Ledger.submit s tid uid Ledger.CKind.accepted amount now
          = ({ s with commitments :=
              ⟨tid, uid, Ledger.Alloc.sellShares t.symbol amount,
                Ledger.Outcome.pending⟩ :: s.commitments }, none)) ∧
    (∀ (s : Ledger.LedgerState) (tid uid : Nat) (t : Ledger.Trade)
        (c : Ledger.Commitment),
        Ledger.findTrade s tid = some t →
        t.status = Ledger.TStatus.expired →
        Ledger.findPending s.commitments tid uid = some c →
        Ledger.expireOne s tid uid
            = ({ s with commitments :=
                Ledger.markFirst s.commitments tid uid Ledger.Outcome.released },
              none) ∧
          (∀ u, Ledger.availCash
                { s with commitments :=
                  Ledger.markFirst s.commitments tid uid Ledger.Outcome.released }
                u
              = Ledger.availCash s u + Ledger.cashContrib u c) ∧
          (∀ u sym, Ledger.availShares
                { s with commitments :=
                  Ledger.markFirst s.commitments tid uid Ledger.Outcome.released }
                u sym
              = Ledger.availShares s u sym + Ledger.shareContrib u sym c)) := by
  refine ⟨?_, ?_, ?_, ?_, ?_⟩
  · intro s tid uid kind amount now t hf hexp
    rcases hexp with hexp | hexp
    · simp [Ledger.submit, hf, hexp]
    · simp [Ledger.submit, hf, hexp]
  · intro s tid uid amount now t hf hstat hbefore hdup
    have hexp : ¬ t.expiresAt < now := by omega
    simp [Ledger.submit, hf, hstat, hexp, hdup]
  · intro s tid uid amount now t hf hact hstat hbefore hdup hamt hfunds
    have hexp : ¬ t.expiresAt < now := by omega
    simp [Ledger.submit, hf, hstat, hact, hexp, hdup, not_le.mpr hamt,
      not_lt.mpr hfunds]
  · intro s tid uid amount now t hf hact hstat hbefore hdup hamt hsh hfunds
    have hexp : ¬ t.expiresAt < now := by omega
    simp [Ledger.submit, hf, hstat, hact, hexp, hdup, not_le.mpr hamt,
      not_le.mpr hsh, not_lt.mpr hfunds]
  · intro s tid uid t c hf hstat hfp
    refine ⟨by simp [Ledger.expireOne, hf, hstat, hfp], ?_, ?_⟩
    · intro u
      simp only [Ledger.availCash,
        Ledger.markFirst_pendingCashSum s.commitments tid uid
          Ledger.Outcome.released (fun hq => Ledger.Outcome.noConfusion hq) c
          hfp u]
      ring
    · intro u sym
      simp only [Ledger.availShares,
        Ledger.markFirst_pendingShareSum s.commitments tid uid
          Ledger.Outcome.released (fun hq => Ledger.Outcome.noConfusion hq) c
          hfp u sym]
      ring

/-- An active BUY trade on NVDA with deadline 100, no commitments yet. -/
def activeState : Ledger.LedgerState :=
  { cash := fun _ => 10000
    shares := fun _ _ => 0
    trades := [⟨4, "NVDA", Ledger.TAction.buy, Ledger.TStatus.active, 100⟩]
    commitments := [] }

/-- An EXPIRED BUY trade on NVDA with one still-PENDING 200-dollar
commitment by user 1. -/
def expiredState : Ledger.LedgerState :=
  { cash := fun _ => 10000
    shares := fun _ _ => 0
    trades := [⟨3, "NVDA", Ledger.TAction.buy, Ledger.TStatus.expired, 5⟩]
    commitments := [⟨3, 1, Ledger.Alloc.buyCash 200, Ledger.Outcome.pending⟩] }

/-- An active SELL trade on MSFT with deadline 100; every user holds 10
shares, no commitments yet. -/
def activeSellState : Ledger.LedgerState :=
  { cash := fun _ => 10000
    shares := fun _ _ => 10
    trades := [⟨5, "MSFT", Ledger.TAction.sell, Ledger.TStatus.active, 100⟩]
    commitments := [] }

/-- C7 witness: a submission against the expired trade is rejected with
TradeExpired; at time 0, strictly before deadline 100, a DENIED response
is recorded SETTLED, an ACCEPTED BUY for 50 is recorded PENDING, and an
ACCEPTED SELL of 5 of 10 held shares is recorded PENDING; and the
reaper's release of the pending 200-dollar commitment marks it
RELEASED. -/
theorem C7_expiry_exclusivity_witness :
    Ledger.submit expiredState 3 2 Ledger.CKind.accepted 50 10
      = (expiredState, some Ledger.Err.tradeExpired) ∧
    Ledger.submit activeState 4 2 Ledger.CKind.denied 0 0
      = ({ activeState with commitments :=
          [⟨4, 2, Ledger.Alloc.denied, Ledger.Outcome.settled⟩] }, none) ∧
    Ledger.submit activeState 4 1 Ledger.CKind.accepted 50 0
      = ({ activeState with commitments :=
          [⟨4, 1, Ledger.Alloc.buyCash 50, Ledger.Outcome.pending⟩] }, none) ∧
    Ledger.submit activeSellState 5 1 Ledger.CKind.accepted 5 0
      = ({ activeSellState with commitments :=
          [⟨5, 1, Ledger.Alloc.sellShares "MSFT" 5,
            Ledger.Outcome.pending⟩] }, none) ∧
    Ledger.expireOne expiredState 3 1
      = ({ expiredState with commitments :=
          (Ledger.markFirst expiredState.commitments 3 1
            Ledger.Outcome.released) }, none) := by
  refine ⟨?_, ?_, ?_, ?_, ?_⟩
  · exact C7_expiry_exclusivity.1 expiredState 3 2 Ledger.CKind.accepted 50 10
      ⟨3, "NVDA", Ledger.TAction.buy, Ledger.TStatus.expired, 5⟩ rfl
      (Or.inl rfl)
  · exact C7_expiry_exclusivity.2.1 activeState 4 2 0 0
      ⟨4, "NVDA", Ledger.TAction.buy, Ledger.TStatus.active, 100⟩ rfl rfl
      (by norm_num) rfl
  · refine C7_expiry_exclusivity.2.2.1 activeState 4 1 50 0
      ⟨4, "NVDA", Ledger.TAction.buy, Ledger.TStatus.active, 100⟩ rfl rfl rfl
      (by norm_num) rfl (by norm_num) ?_
    show (50 : ℚ) ≤ 10000 - Ledger.pendingCashSum [] 1
    simp [Ledger.pendingCashSum]
    norm_num
  · refine C7_expiry_exclusivity.2.2.2.1 activeSellState 5 1 5 0
      ⟨5, "MSFT", Ledger.TAction.sell, Ledger.TStatus.active, 100⟩ rfl rfl rfl
      (by norm_num) rfl (by norm_num) (by show (0 : ℚ) < 10; norm_num) ?_
    show (5 : ℚ) ≤ 10 - Ledger.pendingShareSum [] 1 "MSFT"
    simp [Ledger.pendingShareSum]
    norm_num
  · exact (C7_expiry_exclusivity.2.2.2.2 expiredState 3 1
      ⟨3, "NVDA", Ledger.TAction.buy, Ledger.TStatus.expired, 5⟩
      ⟨3, 1, Ledger.Alloc.buyCash 200, Ledger.Outcome.pending⟩ rfl rfl rfl).1

/-- The accumulating fold of `computeEquity` equals the initial value plus
the mapped sum. -/
theorem foldl_add_mapSum (f : String → ℚ) (l : List String) (init : ℚ) :
    l.foldl (fun acc sym => acc + f sym) init = init + (l.map f).sum := by
  induction l generalizing init with
  | nil => simp
  | cons a rest ih =>
    simp only [List.foldl_cons, List.map_cons, List.sum_cons, ih]
    ring

/-- C8: the reported total value is the cash balance plus the sum over
holdings of shares times the live price of the symbol, and computing it
mutates nothing: the equity query operation returns the ledger state
exactly as it was — no account, holding, trade or commitment changes. -/
theorem C8_compute_equity (s : Ledger.LedgerState) (syms : List String)
    (prices : String → ℚ) (u : Nat) :
    Ledger.computeEquity s syms prices u
        = s.cash u + (syms.map (fun sym => s.shares u sym * prices sym)).sum ∧
    Ledger.applyOp s (Ledger.Op.equityQuery u syms prices) = (s, none) :=
  ⟨foldl_add_mapSum (fun sym => s.shares u sym * prices sym) syms (s.cash u),
    rfl⟩

/-- C1: the solvency invariant.  Starting from any onboarding state with
non-negative balances and holdings, after every sequence of atomic
operations — trade openings, commitment submissions (including any number
of submissions racing to over-allocate the same account, which the
per-account serialization of the spec's concurrency model linearizes into
such a sequence), settlement steps and expiry sweeps — every user's
available cash and every user's available shares (stored balance minus
the sum of that user's PENDING reservations) remain non-negative. -/
theorem C1_solvency (cash₀ : Nat → ℚ) (shares₀ : Nat → String → ℚ)
    (hc : ∀ u, 0 ≤ cash₀ u) (hs : ∀ u sym, 0 ≤ shares₀ u sym)
    (ops : List Ledger.Op) (u : Nat) (sym : String) :
    0 ≤ Ledger.availCash (Ledger.run (Ledger.initState cash₀ shares₀) ops) u ∧
    0 ≤ Ledger.availShares (Ledger.run (Ledger.initState cash₀ shares₀) ops) u
        sym := by
  have h := Ledger.inv_run (Ledger.initState cash₀ shares₀) ops
    (Ledger.inv_init cash₀ shares₀ hc hs)
  exact ⟨h.cashNonneg u, h.sharesNonneg u sym⟩

/-- C1 witness: all accounts start at 10000 cash and no shares; a BUY
trade is opened and user 7 submits twice for 9000 — the second submission
cannot over-allocate — and available cash and shares stay non-negative. -/
theorem C1_solvency_witness :
    0 ≤ Ledger.availCash
        (Ledger.run (Ledger.initState (fun _ => 10000) (fun _ _ => 0))
          [Ledger.Op.openTrade 1 "AAPL" Ledger.TAction.buy 100,
            Ledger.Op.submit 1 7 Ledger.CKind.accepted 9000 0,
            Ledger.Op.submit 1 7 Ledger.CKind.accepted 9000 0]) 7 ∧
    0 ≤ Ledger.availShares
        (Ledger.run (Ledger.initState (fun _ => 10000) (fun _ _ => 0))
          [Ledger.Op.openTrade 1 "AAPL" Ledger.TAction.buy 100,
            Ledger.Op.submit 1 7 Ledger.CKind.accepted 9000 0,
            Ledger.Op.submit 1 7 Ledger.CKind.accepted 9000 0]) 7 "AAPL" :=
  C1_solvency (fun _ => 10000) (fun _ _ => 0) (fun _ => by norm_num)
    (fun _ _ => le_refl 0)
    [Ledger.Op.openTrade 1 "AAPL" Ledger.TAction.buy 100,
      Ledger.Op.submit 1 7 Ledger.CKind.accepted 9000 0,
      Ledger.Op.submit 1 7 Ledger.CKind.accepted 9000 0] 7 "AAPL"

end Claims
